import Mathlib

/-!
# The `influx` command-line entry point (`cmd/influx/main.go`)

A shallow embedding of `main.go`: the package variable `version`, `init`, the
seventeen flag registrations, the custom usage text and the hand-off to the
client core.

Parts that `main.go` only calls are treated as follows.

* `cli.New`, `(*CommandLine).Run`, `(*CommandLine).Version`,
  `client.DefaultHost`, `client.DefaultPort` live in other packages; they are
  the fields of `Env`, and every theorem holds for all their values.
* `github.com/spf13/pflag` and `strconv` are libraries.  Their argument
  scanner (`parseArgs`, `parseLongArg`, `parseShortArg`,
  `parseSingleShortArg`), `Set` methods, `ParseInt` and `ParseBool` are
  written out below after the library sources, on characters instead of bytes
  (both agree on every argument, since all cuts are made at ASCII characters).
-/

namespace Influx

/-! ## `strconv` -/

/-- The two kinds of `strconv.NumError`: `ErrSyntax` and `ErrRange`. -/
inductive NumError where
  | ErrSyntaxKind
  | ErrRangeKind
  deriving DecidableEq, Repr

/-- The byte-level `lower(c)` of `strconv`: `c | ('x' - 'X')`. -/
def lower (c : Nat) : Nat := c ||| 0x20

/-- The constant `maxUint64` of `strconv`. -/
def maxUint64 : Nat := 2 ^ 64 - 1

/-- The base selection of `ParseUint` for `base == 0`: the base and what is
left of the text after the base marker. -/
def pickBase (s : List Char) : Nat × List Char :=
  match s with
  | '0' :: rest =>
    match rest with
    | c :: _ :: _ =>
      if lower c.toNat = 'b'.toNat then (2, rest.tail)
      else if lower c.toNat = 'o'.toNat then (8, rest.tail)
      else if lower c.toNat = 'x'.toNat then (16, rest.tail)
      else (8, rest)
    | _ => (8, rest)
  | _ => (10, s)

/-- The digit loop of `ParseUint` (called with `base == 0`, so an underscore
is skipped here and judged afterwards by `underscoreOK`); `n` is the value
accumulated so far, `maxVal` is `1<<bitSize - 1`. -/
def digitLoop (base maxVal : Nat) : List Char → Nat → Except NumError Nat
  | [], n => .ok n
  | c :: cs, n =>
    if c = '_' then digitLoop base maxVal cs n
    else
      let d? : Option Nat :=
        if '0'.toNat ≤ c.toNat ∧ c.toNat ≤ '9'.toNat then some (c.toNat - '0'.toNat)
        else if 'a'.toNat ≤ lower c.toNat ∧ lower c.toNat ≤ 'z'.toNat then
          some (lower c.toNat - 'a'.toNat + 10)
        else none
      match d? with
      | none => .error .ErrSyntaxKind
      | some d =>
        if d ≥ base then .error .ErrSyntaxKind
        else if n ≥ maxUint64 / base + 1 then .error .ErrRangeKind
        else if n * base + d > maxVal then .error .ErrRangeKind
        else digitLoop base maxVal cs (n * base + d)

/-- The scan of `underscoreOK` over the number proper; `saw` is the last kind
of character seen: `'0'` digit or base marker, `'_'` underscore, `'^'` start,
`'!'` anything else. -/
def underscoreScan (hex : Bool) : List Char → Char → Bool
  | [], saw => saw != '_'
  | c :: cs, saw =>
    if ('0'.toNat ≤ c.toNat ∧ c.toNat ≤ '9'.toNat) ∨
        (hex = true ∧ 'a'.toNat ≤ lower c.toNat ∧ lower c.toNat ≤ 'f'.toNat) then
      underscoreScan hex cs '0'
    else if c = '_' then
      if saw != '0' then false else underscoreScan hex cs '_'
    else if saw = '_' then false
    else underscoreScan hex cs '!'

/-- The function `underscoreOK` of `strconv`: underscores may only separate
digits (the base marker counts as a digit). -/
def underscoreOK (s0 : List Char) : Bool :=
  let s := match s0 with
    | '-' :: t => t
    | '+' :: t => t
    | _ => s0
  match s with
  | '0' :: c :: t =>
    if lower c.toNat = 'b'.toNat ∨ lower c.toNat = 'o'.toNat ∨ lower c.toNat = 'x'.toNat then
      underscoreScan (lower c.toNat = 'x'.toNat) t '0'
    else underscoreScan false s '^'
  | _ => underscoreScan false s '^'

/-- The call `strconv.ParseUint(s, 0, 64)`. -/
def ParseUint (s : List Char) : Except NumError Nat :=
  match s with
  | [] => .error .ErrSyntaxKind
  | _ :: _ =>
    let (base, digits) := pickBase s
    match digitLoop base maxUint64 digits 0 with
    | .error e => .error e
    | .ok n =>
      if digits.contains '_' && !underscoreOK s then .error .ErrSyntaxKind
      else .ok n

/-- The call `strconv.ParseInt(s, 0, 64)`: a sign, then `ParseUint`, then the
range check against `1 << 63`. -/
def ParseInt (s0 : String) : Except NumError Int :=
  match s0.data with
  | [] => .error .ErrSyntaxKind
  | c :: t =>
    let neg : Bool := c = '-'
    let s : List Char := if c = '+' ∨ c = '-' then t else c :: t
    match ParseUint s with
    | .error e => .error e
    | .ok un =>
      if neg = false ∧ un ≥ 2 ^ 63 then .error .ErrRangeKind
      else if neg = true ∧ un > 2 ^ 63 then .error .ErrRangeKind
      else .ok (if neg then - (un : Int) else (un : Int))

/-- The function `strconv.ParseBool`. -/
def ParseBool (str : String) : Except NumError Bool :=
  if str = "1" ∨ str = "t" ∨ str = "T" ∨ str = "true" ∨ str = "TRUE" ∨ str = "True" then
    .ok true
  else if str = "0" ∨ str = "f" ∨ str = "F" ∨ str = "false" ∨ str = "FALSE" ∨
      str = "False" then
    .ok false
  else .error .ErrSyntaxKind

/-! ## The session: the fields of `cli.CommandLine` that `main` binds -/

/-- The fields of `cli.CommandLine` that `main.go` binds to flags, with their
Go types (`string`, `int`, `bool`); its other fields are never touched by
`main`. -/
structure CommandLine where
  Host : String
  Port : Int
  Username : String
  Password : String
  Database : String
  Ssl : Bool
  UnsafeSsl : Bool
  Format : String
  Precision : String
  WriteConsistency : String
  Pretty : Bool
  Execute : String
  ShowVersion : Bool
  Import : Bool
  PPS : Int
  Path : String
  Compressed : Bool
  deriving DecidableEq, Repr

/-- The `string` fields a flag can point to (`&c.Host`, ...). -/
inductive StringField where
  | Host | Username | Password | Database | Format | Precision
  | WriteConsistency | Execute | Path
  deriving DecidableEq, Repr

/-- The `int` fields a flag can point to (`&c.Port`, `&c.PPS`). -/
inductive IntField where
  | Port | PPS
  deriving DecidableEq, Repr

/-- The `bool` fields a flag can point to (`&c.Ssl`, ...). -/
inductive BoolField where
  | Ssl | UnsafeSsl | Pretty | ShowVersion | Import | Compressed
  deriving DecidableEq, Repr

/-- The assignment `*p = v` through a `*string`. -/
def StringField.store : StringField → String → CommandLine → CommandLine
  | .Host, v, c => { c with Host := v }
  | .Username, v, c => { c with Username := v }
  | .Password, v, c => { c with Password := v }
  | .Database, v, c => { c with Database := v }
  | .Format, v, c => { c with Format := v }
  | .Precision, v, c => { c with Precision := v }
  | .WriteConsistency, v, c => { c with WriteConsistency := v }
  | .Execute, v, c => { c with Execute := v }
  | .Path, v, c => { c with Path := v }

/-- The assignment `*p = v` through a `*int`. -/
def IntField.store : IntField → Int → CommandLine → CommandLine
  | .Port, v, c => { c with Port := v }
  | .PPS, v, c => { c with PPS := v }

/-- The assignment `*p = v` through a `*bool`. -/
def BoolField.store : BoolField → Bool → CommandLine → CommandLine
  | .Ssl, v, c => { c with Ssl := v }
  | .UnsafeSsl, v, c => { c with UnsafeSsl := v }
  | .Pretty, v, c => { c with Pretty := v }
  | .ShowVersion, v, c => { c with ShowVersion := v }
  | .Import, v, c => { c with Import := v }
  | .Compressed, v, c => { c with Compressed := v }

/-! ## `pflag` -/

/-- The three implementations of the `Value` interface that `main` uses, each
wrapping the pointer it was created with. -/
inductive Value where
  | stringValue (p : StringField)
  | intValue (p : IntField)
  | boolValue (p : BoolField)
  deriving DecidableEq, Repr

/-- The method `Value.Set`: `stringValue` stores the text, `intValue` stores
`ParseInt(s, 0, 64)`, `boolValue` stores `ParseBool(s)`; a conversion error is
returned (the process then exits, so what Go leaves in the variable is not
kept). -/
def Value.Set : Value → String → CommandLine → Except NumError CommandLine
  | .stringValue p, s, c => .ok (p.store s c)
  | .intValue p, s, c =>
    match ParseInt s with
    | .ok v => .ok (p.store v c)
    | .error e => .error e
  | .boolValue p, s, c =>
    match ParseBool s with
    | .ok v => .ok (p.store v c)
    | .error e => .error e

/-- A registered `pflag.Flag`: long name, one-letter shorthand (or `""`),
value, default as text, and the value used when the flag is given bare. -/
structure Flag where
  Name : String
  Shorthand : String
  Value : Value
  DefValue : String
  NoOptDefVal : String
  deriving DecidableEq, Repr

/-- A `pflag.FlagSet`: its name and the registered flags in registration order
(the maps `formal` and `shorthands` are lookups in this list). -/
structure FlagSet where
  name : String
  formal : List Flag
  deriving DecidableEq, Repr

/-- The lookup `f.formal[name]`. -/
def FlagSet.lookup (f : FlagSet) (name : String) : Option Flag :=
  f.formal.find? (fun fl => fl.Name = name)

/-- The lookup `f.shorthands[c]`. -/
def FlagSet.lookupShorthand (f : FlagSet) (c : Char) : Option Flag :=
  f.formal.find? (fun fl => fl.Shorthand = String.mk [c])

/-- The errors of a parse: the help request `ErrHelp`, the failures reported
through `failf`, and `fuelExhausted`, which belongs to the loops below and
never comes out of `Parse` (`Parse_fuel`). -/
inductive ParseError where
  | ErrHelp
  | badFlagSyntax (s : String)
  | unknownFlag (name : String)
  | needsArgument (s : String)
  | unknownShorthand (c : Char) (shorthands : String)
  | noSuchFlag (name : String)
  | invalidArgument (value : String) (flagName : String) (e : NumError)
  | fuelExhausted
  deriving DecidableEq, Repr

/-- The call `strings.SplitN(name, "=", 2)`: the text before the first `=`,
and the text after it when there is one. -/
def splitN2 : List Char → List Char × Option (List Char)
  | [] => ([], none)
  | c :: cs =>
    if c = '=' then ([], some cs)
    else ((c :: (splitN2 cs).1), (splitN2 cs).2)

variable {σ : Type}

/-- The method `parseLongArg`: `s` is the argument (it starts with `--` and is
longer), `a` the arguments after it, `fn` the callback that sets a flag. -/
def parseLongArg (f : FlagSet) (fn : Flag → String → σ → Except ParseError σ)
    (s : String) (a : List String) (st : σ) : Except ParseError (List String × σ) :=
  match s.data.drop 2 with
  | [] => .error (.badFlagSyntax s)
  | c :: t =>
    if c = '-' ∨ c = '=' then .error (.badFlagSyntax s)
    else
      let split := splitN2 (c :: t)
      let name := String.mk split.1
      match f.lookup name with
      | none => if name = "help" then .error .ErrHelp else .error (.unknownFlag name)
      | some flag =>
        match split.2 with
        | some v =>
          match fn flag (String.mk v) st with
          | .error e => .error e
          | .ok st1 => .ok (a, st1)
        | none =>
          if flag.NoOptDefVal ≠ "" then
            match fn flag flag.NoOptDefVal st with
            | .error e => .error e
            | .ok st1 => .ok (a, st1)
          else
            match a with
            | v :: outArgs =>
              match fn flag v st with
              | .error e => .error e
              | .ok st1 => .ok (outArgs, st1)
            | [] => .error (.needsArgument s)

/-- The method `parseSingleShortArg`: handles the first letter of
`shorthands` and returns what is left of the letters and of the arguments.
Letters that start with `test.` are skipped whole (they belong to the flags
of a Go test binary); with no letters the method is never called. -/
def parseSingleShortArg (f : FlagSet) (fn : Flag → String → σ → Except ParseError σ)
    (shorthands : List Char) (args : List String) (st : σ) :
    Except ParseError (List Char × List String × σ) :=
  if "test.".data.isPrefixOf shorthands then .ok ([], args, st)
  else
    match shorthands with
    | [] => .ok ([], args, st)
    | c :: outShorts =>
      match f.lookupShorthand c with
      | none =>
        if c = 'h' then .error .ErrHelp
        else .error (.unknownShorthand c (String.mk shorthands))
      | some flag =>
        if shorthands.length > 2 ∧ outShorts.head? = some '=' then
          match fn flag (String.mk (shorthands.drop 2)) st with
          | .error e => .error e
          | .ok st1 => .ok ([], args, st1)
        else if flag.NoOptDefVal ≠ "" then
          match fn flag flag.NoOptDefVal st with
          | .error e => .error e
          | .ok st1 => .ok (outShorts, args, st1)
        else if shorthands.length > 1 then
          match fn flag (String.mk outShorts) st with
          | .error e => .error e
          | .ok st1 => .ok ([], args, st1)
        else
          match args with
          | v :: outArgs =>
            match fn flag v st with
            | .error e => .error e
            | .ok st1 => .ok (outShorts, outArgs, st1)
          | [] => .error (.needsArgument (String.mk ('-' :: shorthands)))

/-- The loop of `parseShortArg` over the letters of one argument; every round
drops at least one letter, so `fuel = len(shorthands)` is enough. -/
def parseShortArgLoop (f : FlagSet) (fn : Flag → String → σ → Except ParseError σ) :
    Nat → List Char → List String → σ → Except ParseError (List String × σ)
  | _, [], outArgs, st => .ok (outArgs, st)
  | 0, _ :: _, _, _ => .error .fuelExhausted
  | fuel + 1, c :: cs, outArgs, st =>
    match parseSingleShortArg f fn (c :: cs) outArgs st with
    | .error e => .error e
    | .ok (shorthands, outArgs1, st1) => parseShortArgLoop f fn fuel shorthands outArgs1 st1

/-- The method `parseShortArg`: `s` is the argument (a `-` followed by
letters), `a` the arguments after it. -/
def parseShortArg (f : FlagSet) (fn : Flag → String → σ → Except ParseError σ)
    (s : String) (a : List String) (st : σ) : Except ParseError (List String × σ) :=
  parseShortArgLoop f fn (s.data.drop 1).length (s.data.drop 1) a st

/-- The loop of `parseArgs` (with `interspersed` set, the default): an
argument that is empty, is one character long or does not start with `-` is
positional and skipped; `--` ends the flags; every round drops at least one
argument, so `fuel = len(args)` is enough. -/
def parseArgs (f : FlagSet) (fn : Flag → String → σ → Except ParseError σ) :
    Nat → List String → σ → Except ParseError σ
  | _, [], st => .ok st
  | 0, _ :: _, _ => .error .fuelExhausted
  | fuel + 1, s :: args, st =>
    match s.data with
    | [] => parseArgs f fn fuel args st
    | [_] => parseArgs f fn fuel args st
    | c0 :: c1 :: t =>
      if c0 ≠ '-' then parseArgs f fn fuel args st
      else if c1 = '-' then
        if t = [] then .ok st
        else
          match parseLongArg f fn s args st with
          | .error e => .error e
          | .ok (args1, st1) => parseArgs f fn fuel args1 st1
      else
        match parseShortArg f fn s args st with
        | .error e => .error e
        | .ok (args1, st1) => parseArgs f fn fuel args1 st1

/-- The method `FlagSet.Set(name, value)`: look the flag up and call its
`Value.Set`. -/
def FlagSet.Set (f : FlagSet) (name value : String) (c : CommandLine) :
    Except ParseError CommandLine :=
  match f.lookup name with
  | none => .error (.noSuchFlag name)
  | some flag =>
    match flag.Value.Set value c with
    | .error e => .error (.invalidArgument value flag.Name e)
    | .ok c1 => .ok c1

/-- The method `FlagSet.Parse` up to its error handling: `parseArgs` with the
callback `f.Set(flag.Name, value)`. -/
def FlagSet.Parse (f : FlagSet) (arguments : List String) (c : CommandLine) :
    Except ParseError CommandLine :=
  parseArgs f (fun flag value st => f.Set flag.Name value st) arguments.length arguments c

/-- The method `FlagSet.ParseAll` with a callback that only records the
option names and values in the order given: the assignments an argument list
asks for, before any conversion. -/
def FlagSet.assignments (f : FlagSet) (arguments : List String) :
    Except ParseError (List (String × String)) :=
  parseArgs f (fun flag value st => .ok (st ++ [(flag.Name, value)]))
    arguments.length arguments []

/-- The state `main` threads through the registrations: the flag set and the
session the flags point into. -/
abbrev Registration := FlagSet × CommandLine

/-- The call `flag.NewFlagSet(name, flag.ExitOnError)`. -/
def NewFlagSet (name : String) : FlagSet := { name := name, formal := [] }

/-- The method `StringVarP(p, name, shorthand, value, usage)`: `*p = value`,
then the flag is added. -/
def StringVarP (p : StringField) (name shorthand value : String) (r : Registration) :
    Registration :=
  ({ r.1 with formal := r.1.formal ++ [⟨name, shorthand, .stringValue p, value, ""⟩] },
    p.store value r.2)

/-- The method `StringVar`: `StringVarP` without a shorthand. -/
def StringVar (p : StringField) (name value : String) (r : Registration) : Registration :=
  StringVarP p name "" value r

/-- The method `IntVarP(p, name, shorthand, value, usage)`. -/
def IntVarP (p : IntField) (name shorthand : String) (value : Int) (r : Registration) :
    Registration :=
  ({ r.1 with formal := r.1.formal ++ [⟨name, shorthand, .intValue p, toString value, ""⟩] },
    p.store value r.2)

/-- The method `IntVar`: `IntVarP` without a shorthand. -/
def IntVar (p : IntField) (name : String) (value : Int) (r : Registration) : Registration :=
  IntVarP p name "" value r

/-- The method `BoolVarP(p, name, shorthand, value, usage)`: as the others,
and the flag gets `NoOptDefVal = "true"`. -/
def BoolVarP (p : BoolField) (name shorthand : String) (value : Bool) (r : Registration) :
    Registration :=
  ({ r.1 with formal :=
      r.1.formal ++ [⟨name, shorthand, .boolValue p, toString value, "true"⟩] },
    p.store value r.2)

/-- The method `BoolVar`: `BoolVarP` without a shorthand. -/
def BoolVar (p : BoolField) (name : String) (value : Bool) (r : Registration) : Registration :=
  BoolVarP p name "" value r

/-! ## `main.go` -/

/-- What `main.go` takes from the packages `cli` and `client` and from the
flag library's release: the constants `client.DefaultHost` and
`client.DefaultPort`, the constructor `cli.New`, the method `Run` (its result
is the text of the error it returns, `none` for `nil`), and whether the flag
library leaves the process with status 0 after a help request (`--help` or
`-h`, neither of them registered here), as its newer releases do, or with
status 2 like after every other failed parse. -/
structure Env where
  DefaultHost : String
  DefaultPort : Int
  New : String → CommandLine
  Run : CommandLine → Option String
  helpExitsZero : Bool

/-- The constant `defaultFormat`. -/
def defaultFormat : String := "column"

/-- The constant `defaultPrecision`. -/
def defaultPrecision : String := "ns"

/-- The constant `defaultPPS`. -/
def defaultPPS : Int := 0

/-- The function `init`, as a function of the package variable `version`
(set by the linker, or left empty): its value after `init` has run. -/
def init (version : String) : String :=
  if version = "" then "unknown" else version

/-- The text the custom `fs.Usage` prints. -/
def usageText : String :=
  "Usage of influx:\n" ++
  "  -v, --version\n" ++
  "       Display the version and exit.\n" ++
  "  -H, --host 'host name'\n" ++
  "       Host to connect to.\n" ++
  "  -p, --port 'port #'\n" ++
  "       Port to connect to.\n" ++
  "  -d, --database 'database name'\n" ++
  "       Database to connect to the server.\n" ++
  "  --password 'password'\n" ++
  "      Password to connect to the server.  Leaving blank will prompt for password (--password '').\n" ++
  "  -u, --username 'username'\n" ++
  "       Username to connect to the server.\n" ++
  "  --ssl\n" ++
  "        Use https for requests.\n" ++
  "  --unsafeSsl\n" ++
  "        Set this when connecting to the cluster using https and not use SSL verification.\n" ++
  "  -e, --execute 'command'\n" ++
  "       Execute command and quit.\n" ++
  "  --format 'json|csv|column'\n" ++
  "       Format specifies the format of the server responses:  json, csv, or column.\n" ++
  "  --precision 'rfc3339|h|m|s|ms|u|ns'\n" ++
  "       Precision specifies the format of the timestamp:  rfc3339, h, m, s, ms, u or ns.\n" ++
  "  --consistency 'any|one|quorum|all'\n" ++
  "       Set write consistency level: any, one, quorum, or all\n" ++
  "  --pretty\n" ++
  "       Turns on pretty print for the json format.\n" ++
  "  --import\n" ++
  "       Import a previous database export from file\n" ++
  "  --pps\n" ++
  "       How many points per second the import will allow.  By default it is zero and will not throttle importing.\n" ++
  "  --path\n" ++
  "       Path to file to import\n" ++
  "  --compressed\n" ++
  "       Set to true if the import file is compressed\n" ++
  "\n" ++
  "Examples:\n" ++
  "\n" ++
  "    # Use influx in a non-interactive mode to query the database \"metrics\" and pretty print json:\n" ++
  "    $ influx --database 'metrics' --execute 'select * from cpu' --format 'json' --pretty\n" ++
  "\n" ++
  "    # Connect to a specific database on startup and set database context:\n" ++
  "    $ influx --database 'metrics' --host 'localhost' --port '8086'\n"

/-- Lines 37 to 56 of `main`: `cli.New(version)`, the new flag set and the
seventeen registrations, in source order.  A default written `c.Username` in
the source is read from the session at that point. -/
def registerFlags (env : Env) (version : String) : Registration :=
  let r : Registration := (NewFlagSet ("InfluxDB shell version " ++ version), env.New version)
  let r := StringVarP .Host "host" "H" env.DefaultHost r
  let r := IntVarP .Port "port" "p" env.DefaultPort r
  let r := StringVarP .Username "username" "u" r.2.Username r
  let r := StringVar .Password "password" r.2.Password r
  let r := StringVarP .Database "database" "d" r.2.Database r
  let r := BoolVar .Ssl "ssl" false r
  let r := BoolVar .UnsafeSsl "unsafeSsl" false r
  let r := StringVar .Format "format" defaultFormat r
  let r := StringVar .Precision "precision" defaultPrecision r
  let r := StringVar .WriteConsistency "consistency" "all" r
  let r := BoolVar .Pretty "pretty" false r
  let r := StringVarP .Execute "execute" "e" r.2.Execute r
  let r := BoolVarP .ShowVersion "version" "v" false r
  let r := BoolVar .Import "import" false r
  let r := IntVar .PPS "pps" defaultPPS r
  let r := StringVar .Path "path" "" r
  let r := BoolVar .Compressed "compressed" false r
  r

/-- The session after `fs.Parse(os.Args[1:])` has returned, or the error on
which `Parse` leaves the process. -/
def session (env : Env) (version : String) (args : List String) :
    Except ParseError CommandLine :=
  (registerFlags env version).1.Parse args (registerFlags env version).2

/-- What `main` does that can be seen from outside: the call `c.Version()`,
the call `c.Run()`, a write of `main` to the error stream, and leaving the
process with a status. -/
inductive Event where
  | Version (c : CommandLine)
  | Run (c : CommandLine)
  | Stderr (text : String)
  | Exit (status : Nat)
  deriving DecidableEq, Repr

/-- The function `main`, as the sequence of its events for the value of
`version` and the arguments `os.Args[1:]`.  With `flag.ExitOnError` a failed
parse leaves the process inside `Parse`: status 2, or 0 after a help
request if `env.helpExitsZero`.  A trace without `Exit` is `main` returning. -/
def main (env : Env) (version : String) (args : List String) : List Event :=
  match session env version args with
  | .error e => [.Exit (if e = .ErrHelp ∧ env.helpExitsZero = true then 0 else 2)]
  | .ok c =>
    if c.ShowVersion then [.Version c, .Exit 0]
    else
      match env.Run c with
      | some err => [.Run c, .Stderr (err ++ "\n"), .Exit 1]
      | none => [.Run c]

/-- The process from its start: `init` runs on the linker's value of
`version` before `main` does. -/
def program (env : Env) (linked : String) (args : List String) : List Event :=
  main env (init linked) args

/-- The exit status of the process: that of the first `Exit`, and 0 when
`main` returns. -/
def exitStatus : List Event → Nat
  | [] => 0
  | .Exit n :: _ => n
  | _ :: t => exitStatus t

/-- Everything `main` wrote to the error stream, in order. -/
def stderrOutput : List Event → String
  | [] => ""
  | .Stderr s :: t => s ++ stderrOutput t
  | _ :: t => stderrOutput t

/-- Whether `c.Run()` was called. -/
def runInvoked (t : List Event) : Bool :=
  t.any (fun e => match e with | .Run _ => true | _ => false)

/-- Whether `c.Version()` was called. -/
def versionDisplayed (t : List Event) : Bool :=
  t.any (fun e => match e with | .Version _ => true | _ => false)

/-! ## Reading the usage text -/

/-- One option as the usage text documents it: the one-letter short name
(`""` when the line gives none), the long name, and the alternatives of the
quoted placeholder split at `|` (empty when the line has no placeholder). -/
structure UsageOption where
  short : String
  long : String
  values : List String
  deriving DecidableEq, Repr

/-- The lines of a text, read front to back: `cur` is the line being read
(backwards), `acc` the finished lines (last first). -/
def splitLinesAux : List Char → List Char → List (List Char) → List (List Char)
  | [], cur, acc => (cur.reverse :: acc).reverse
  | c :: cs, cur, acc =>
    if c = '\n' then splitLinesAux cs [] (cur.reverse :: acc)
    else splitLinesAux cs (c :: cur) acc

/-- The lines of a text. -/
def splitLines (text : List Char) : List (List Char) :=
  splitLinesAux text [] []

/-- The pieces of a text between the bars `|`. -/
def splitBars : List Char → List (List Char)
  | [] => [[]]
  | c :: cs =>
    match splitBars cs with
    | [] => [[c]]
    | l :: ls => if c = '|' then [] :: l :: ls else (c :: l) :: ls

/-- What follows the long name on an option line: the alternatives inside the
single quotes, if the line has a quoted placeholder. -/
def placeholderValues : List Char → List String
  | ' ' :: '\'' :: rest => (splitBars (rest.takeWhile (fun c => c != '\''))).map String.mk
  | _ => []

/-- The long name and placeholder of an option line, from the text after
the two dashes. -/
def longPart (short : String) (r : List Char) : UsageOption :=
  { short := short,
    long := String.mk (r.takeWhile (fun c => c != ' ')),
    values := placeholderValues (r.dropWhile (fun c => c != ' ')) }

/-- An option line of the usage text is indented by exactly two blanks and
starts either with the long name or with the short name, a comma and the
long name. -/
def usageLine (line : List Char) : Option UsageOption :=
  match line with
  | ' ' :: ' ' :: '-' :: '-' :: r => some (longPart "" r)
  | ' ' :: ' ' :: '-' :: x :: ',' :: ' ' :: '-' :: '-' :: r => some (longPart (String.mk [x]) r)
  | _ => none

/-- The options the usage text documents, in the order of the text. -/
def usageOptions : List UsageOption :=
  (splitLines usageText.data).filterMap usageLine

/-! ## Values and forms used in the statements -/

/-- The output formats of the specification. -/
def outputFormats : List String := ["json", "csv", "column"]

/-- The time precisions of the specification. -/
def timePrecisions : List String := ["rfc3339", "h", "m", "s", "ms", "u", "ns"]

/-- The write consistency levels of the specification. -/
def writeConsistencies : List String := ["any", "one", "quorum", "all"]

/-- The seventeen flags in registration order, written out (`registerFlags_eq`). -/
def registeredFlags (env : Env) (version : String) : List Flag :=
  [ ⟨"host", "H", .stringValue .Host, env.DefaultHost, ""⟩,
    ⟨"port", "p", .intValue .Port, toString env.DefaultPort, ""⟩,
    ⟨"username", "u", .stringValue .Username, (env.New version).Username, ""⟩,
    ⟨"password", "", .stringValue .Password, (env.New version).Password, ""⟩,
    ⟨"database", "d", .stringValue .Database, (env.New version).Database, ""⟩,
    ⟨"ssl", "", .boolValue .Ssl, toString false, "true"⟩,
    ⟨"unsafeSsl", "", .boolValue .UnsafeSsl, toString false, "true"⟩,
    ⟨"format", "", .stringValue .Format, "column", ""⟩,
    ⟨"precision", "", .stringValue .Precision, "ns", ""⟩,
    ⟨"consistency", "", .stringValue .WriteConsistency, "all", ""⟩,
    ⟨"pretty", "", .boolValue .Pretty, toString false, "true"⟩,
    ⟨"execute", "e", .stringValue .Execute, (env.New version).Execute, ""⟩,
    ⟨"version", "v", .boolValue .ShowVersion, toString false, "true"⟩,
    ⟨"import", "", .boolValue .Import, toString false, "true"⟩,
    ⟨"pps", "", .intValue .PPS, toString (0 : Int), ""⟩,
    ⟨"path", "", .stringValue .Path, "", ""⟩,
    ⟨"compressed", "", .boolValue .Compressed, toString false, "true"⟩ ]

/-- The session as the registrations leave it, written out
(`registerFlags_eq`). -/
def defaultSession (env : Env) (version : String) : CommandLine :=
  { Host := env.DefaultHost, Port := env.DefaultPort,
    Username := (env.New version).Username, Password := (env.New version).Password,
    Database := (env.New version).Database, Ssl := false, UnsafeSsl := false,
    Format := "column", Precision := "ns", WriteConsistency := "all", Pretty := false,
    Execute := (env.New version).Execute, ShowVersion := false, Import := false,
    PPS := 0, Path := "", Compressed := false }

/-- The value an option ends up with after the assignments `l`: that of the
last assignment to `name`, and `dflt` when there is none. -/
def lastValue (l : List (String × String)) (name dflt : String) : String :=
  l.foldl (fun acc p => if p.1 = name then p.2 else acc) dflt

/-- An environment for evaluating `main` on concrete arguments: the wire
client's defaults `localhost` and 8086, a `cli.New` that leaves every field
at its zero value, and a `Run` that fails exactly when asked to execute the
command `fail`. -/
def sampleEnv : Env :=
  { DefaultHost := "localhost", DefaultPort := 8086,
    New := fun _ => ⟨"", 0, "", "", "", false, false, "", "", "", false, "", false, false, 0,
      "", false⟩,
    Run := fun c => if c.Execute = "fail" then some "boom" else none,
    helpExitsZero := false }

/-- The environment `sampleEnv` with a newer release of the flag library: a
help request leaves the process with status 0. -/
def sampleEnvNewer : Env :=
  { sampleEnv with helpExitsZero := true }

instance instDecidableEqExcept {ε α : Type} [DecidableEq ε] [DecidableEq α] :
    DecidableEq (Except ε α)
  | .ok a, .ok b =>
    if h : a = b then isTrue (by rw [h]) else isFalse (by intro h1; cases h1; exact h rfl)
  | .error a, .error b =>
    if h : a = b then isTrue (by rw [h]) else isFalse (by intro h1; cases h1; exact h rfl)
  | .ok _, .error _ => isFalse (by intro h; cases h)
  | .error _, .ok _ => isFalse (by intro h; cases h)

/-! ## The registrations, written out -/

/-- The seventeen registrations leave exactly the flag list `registeredFlags`
and the session `defaultSession`. -/
theorem registerFlags_eq (env : Env) (version : String) :
    registerFlags env version =
      (⟨"InfluxDB shell version " ++ version, registeredFlags env version⟩,
        defaultSession env version) := by
  simp [registerFlags, StringVarP, StringVar, IntVar, IntVarP, BoolVar, BoolVarP, NewFlagSet,
    registeredFlags, defaultSession, StringField.store, IntField.store, BoolField.store,
    defaultFormat, defaultPrecision, defaultPPS]

/-- With no arguments the parse returns the session of the registrations. -/
theorem session_nil (env : Env) (version : String) :
    session env version [] = .ok (defaultSession env version) := by
  simp [session, registerFlags_eq, FlagSet.Parse, parseArgs]

/-! ## The loops of the parse end -/

section Fuel
variable {σ : Type}

theorem parseLongArg_bound (f : FlagSet) (fn : Flag → String → σ → Except ParseError σ)
    (hfn : ∀ flag v st, fn flag v st ≠ .error .fuelExhausted)
    (s : String) (a : List String) (st : σ) :
    match parseLongArg f fn s a st with
    | .ok r => r.1.length ≤ a.length
    | .error e => e ≠ .fuelExhausted := by
  unfold parseLongArg
  cases hd : s.data.drop 2 with
  | nil => simp
  | cons c cs =>
    simp only
    by_cases hc : c = '-' ∨ c = '='
    · simp [hc]
    · rw [if_neg hc]
      cases hl : f.lookup (String.mk (splitN2 (c :: cs)).1) with
      | none =>
        simp only
        by_cases hh : String.mk (splitN2 (c :: cs)).1 = "help"
        · simp [hh]
        · simp [hh]
      | some flag =>
        simp only
        cases hv : (splitN2 (c :: cs)).2 with
        | some v =>
          simp only
          cases hs : fn flag (String.mk v) st with
          | error e =>
            have he : e ≠ .fuelExhausted := fun he => hfn _ _ _ (he ▸ hs)
            simp [he]
          | ok s2 => simp
        | none =>
          simp only
          by_cases hno : flag.NoOptDefVal ≠ ""
          · rw [if_pos hno]
            cases hs : fn flag flag.NoOptDefVal st with
            | error e =>
              have he : e ≠ .fuelExhausted := fun he => hfn _ _ _ (he ▸ hs)
              simp [he]
            | ok s2 => simp
          · rw [if_neg hno]
            cases a with
            | nil => simp
            | cons v outArgs =>
              simp only
              cases hs : fn flag v st with
              | error e =>
                have he : e ≠ .fuelExhausted := fun he => hfn _ _ _ (he ▸ hs)
                simp [he]
              | ok s2 => simp

theorem parseSingleShortArg_bound (f : FlagSet)
    (fn : Flag → String → σ → Except ParseError σ)
    (hfn : ∀ flag v st, fn flag v st ≠ .error .fuelExhausted)
    (sh : List Char) (a : List String) (st : σ) :
    match parseSingleShortArg f fn sh a st with
    | .ok r => r.1.length ≤ sh.tail.length ∧ r.2.1.length ≤ a.length
    | .error e => e ≠ .fuelExhausted := by
  unfold parseSingleShortArg
  by_cases ht : "test.".data.isPrefixOf sh = true
  · rw [if_pos ht]
    simp
  · rw [if_neg ht]
    cases sh with
    | nil => simp
    | cons c outShorts =>
      simp only
      cases hl : f.lookupShorthand c with
      | none =>
        simp only
        by_cases hh : c = 'h'
        · simp [hh]
        · simp [hh]
      | some flag =>
        simp only
        by_cases h1 : (c :: outShorts).length > 2 ∧ outShorts.head? = some '='
        · rw [if_pos h1]
          cases hs : fn flag (String.mk (List.drop 2 (c :: outShorts))) st with
          | error e =>
            have he : e ≠ .fuelExhausted := fun he => hfn _ _ _ (he ▸ hs)
            simp [he]
          | ok s2 => simp
        · rw [if_neg h1]
          by_cases hno : flag.NoOptDefVal ≠ ""
          · rw [if_pos hno]
            cases hs : fn flag flag.NoOptDefVal st with
            | error e =>
              have he : e ≠ .fuelExhausted := fun he => hfn _ _ _ (he ▸ hs)
              simp [he]
            | ok s2 => simp
          · rw [if_neg hno]
            by_cases h2 : (c :: outShorts).length > 1
            · rw [if_pos h2]
              cases hs : fn flag (String.mk outShorts) st with
              | error e =>
                have he : e ≠ .fuelExhausted := fun he => hfn _ _ _ (he ▸ hs)
                simp [he]
              | ok s2 => simp
            · rw [if_neg h2]
              cases a with
              | nil => simp
              | cons v outArgs =>
                simp only
                cases hs : fn flag v st with
                | error e =>
                  have he : e ≠ .fuelExhausted := fun he => hfn _ _ _ (he ▸ hs)
                  simp [he]
                | ok s2 => simp

theorem parseShortArgLoop_bound (f : FlagSet)
    (fn : Flag → String → σ → Except ParseError σ)
    (hfn : ∀ flag v st, fn flag v st ≠ .error .fuelExhausted) :
    ∀ (fuel : Nat) (sh : List Char) (a : List String) (st : σ), sh.length ≤ fuel →
      match parseShortArgLoop f fn fuel sh a st with
      | .ok r => r.1.length ≤ a.length
      | .error e => e ≠ .fuelExhausted := by
  intro fuel
  induction fuel with
  | zero =>
    intro sh a st hlen
    cases sh with
    | nil => simp [parseShortArgLoop]
    | cons c cs => simp at hlen
  | succ n ih =>
    intro sh a st hlen
    cases sh with
    | nil => simp [parseShortArgLoop]
    | cons c cs =>
      simp only [parseShortArgLoop]
      have hb := parseSingleShortArg_bound f fn hfn (c :: cs) a st
      cases hs : parseSingleShortArg f fn (c :: cs) a st with
      | error e =>
        rw [hs] at hb
        simpa using hb
      | ok r =>
        obtain ⟨sh2, a2, st2⟩ := r
        rw [hs] at hb
        simp only [List.tail_cons] at hb
        simp only [List.length_cons, Nat.add_le_add_iff_right] at hlen
        have h2 := ih sh2 a2 st2 (le_trans hb.1 hlen)
        simp only
        cases hr : parseShortArgLoop f fn n sh2 a2 st2 with
        | error e =>
          rw [hr] at h2
          simpa using h2
        | ok r2 =>
          rw [hr] at h2
          exact le_trans h2 hb.2

theorem parseArgs_fuel (f : FlagSet) (fn : Flag → String → σ → Except ParseError σ)
    (hfn : ∀ flag v st, fn flag v st ≠ .error .fuelExhausted) :
    ∀ (fuel : Nat) (args : List String) (st : σ), args.length ≤ fuel →
      parseArgs f fn fuel args st ≠ .error .fuelExhausted := by
  intro fuel
  induction fuel with
  | zero =>
    intro args st hlen
    cases args with
    | nil => simp [parseArgs]
    | cons s rest => simp at hlen
  | succ n ih =>
    intro args st hlen
    cases args with
    | nil => simp [parseArgs]
    | cons s rest =>
      simp only [List.length_cons, Nat.add_le_add_iff_right] at hlen
      simp only [parseArgs]
      cases hd : s.data with
      | nil => exact ih _ _ hlen
      | cons c0 l =>
        cases l with
        | nil => exact ih _ _ hlen
        | cons c1 tl =>
          simp only
          by_cases h0 : c0 ≠ '-'
          · rw [if_pos h0]
            exact ih _ _ hlen
          · rw [if_neg h0]
            by_cases h1 : c1 = '-'
            · rw [if_pos h1]
              by_cases h2 : tl = []
              · rw [if_pos h2]
                simp
              · rw [if_neg h2]
                have hb := parseLongArg_bound f fn hfn s rest st
                cases hs : parseLongArg f fn s rest st with
                | error e =>
                  rw [hs] at hb
                  simpa using hb
                | ok r =>
                  rw [hs] at hb
                  exact ih _ _ (le_trans hb hlen)
            · rw [if_neg h1]
              have hb := parseShortArgLoop_bound f fn hfn _ (s.data.drop 1) rest st (le_refl _)
              cases hs : parseShortArg f fn s rest st with
              | error e =>
                rw [show parseShortArgLoop f fn (s.data.drop 1).length (s.data.drop 1) rest st =
                  parseShortArg f fn s rest st from rfl, hs] at hb
                simpa using hb
              | ok r =>
                rw [show parseShortArgLoop f fn (s.data.drop 1).length (s.data.drop 1) rest st =
                  parseShortArg f fn s rest st from rfl, hs] at hb
                exact ih _ _ (le_trans hb hlen)

/-- The loops of the parse never run out of fuel: `Parse` returns a session or
one of the library's own errors. -/
theorem Parse_fuel (f : FlagSet) (arguments : List String) (c : CommandLine) :
    f.Parse arguments c ≠ .error .fuelExhausted := by
  unfold FlagSet.Parse
  refine parseArgs_fuel f _ (fun flag v st => ?_) _ _ _ (le_refl _)
  unfold FlagSet.Set
  cases f.lookup flag.Name with
  | none => simp
  | some fl =>
    simp only
    cases fl.Value.Set v st <;> simp

end Fuel

/-! ## Two runs of the parse over the same arguments -/

section Sim
variable {σ τ : Type}

theorem lookup_mem (f : FlagSet) (name : String) (flag : Flag)
    (h : f.lookup name = some flag) : flag ∈ f.formal :=
  List.mem_of_find?_eq_some h

theorem lookupShorthand_mem (f : FlagSet) (c : Char) (flag : Flag)
    (h : f.lookupShorthand c = some flag) : flag ∈ f.formal :=
  List.mem_of_find?_eq_some h

theorem parseLongArg_sim (f : FlagSet) (fn1 : Flag → String → σ → Except ParseError σ)
    (fn2 : Flag → String → τ → Except ParseError τ) (R : σ → τ → Prop)
    (hstep : ∀ flag ∈ f.formal, ∀ v s s1 t, R s t → fn1 flag v s = .ok s1 →
      ∃ t1, fn2 flag v t = .ok t1 ∧ R s1 t1)
    (s : String) (a : List String) (st : σ) (t : τ) (out : List String) (st1 : σ)
    (hR : R st t) (h : parseLongArg f fn1 s a st = .ok (out, st1)) :
    ∃ t1, parseLongArg f fn2 s a t = .ok (out, t1) ∧ R st1 t1 := by
  unfold parseLongArg at h ⊢
  cases hd : s.data.drop 2 with
  | nil => simp [hd] at h
  | cons c cs =>
    simp only [hd] at h ⊢
    by_cases hc : c = '-' ∨ c = '='
    · simp [hc] at h
    · simp only [hc, if_false] at h ⊢
      cases hl : f.lookup (String.mk (splitN2 (c :: cs)).1) with
      | none =>
        simp only [hl] at h
        split at h <;> cases h
      | some flag =>
        have hm := lookup_mem f _ _ hl
        simp only [hl] at h ⊢
        cases hv : (splitN2 (c :: cs)).2 with
        | some v =>
          simp only [hv] at h ⊢
          cases hs : fn1 flag (String.mk v) st with
          | error e => simp [hs] at h
          | ok s2 =>
            simp only [hs, Except.ok.injEq, Prod.mk.injEq] at h
            obtain ⟨t1, ht1, hR1⟩ := hstep flag hm _ _ _ _ hR hs
            exact ⟨t1, by simp [ht1, h.1], h.2 ▸ hR1⟩
        | none =>
          simp only [hv] at h ⊢
          by_cases hno : flag.NoOptDefVal ≠ ""
          · rw [if_pos hno] at h ⊢
            cases hs : fn1 flag flag.NoOptDefVal st with
            | error e => simp [hs] at h
            | ok s2 =>
              simp only [hs, Except.ok.injEq, Prod.mk.injEq] at h
              obtain ⟨t1, ht1, hR1⟩ := hstep flag hm _ _ _ _ hR hs
              exact ⟨t1, by simp [ht1, h.1], h.2 ▸ hR1⟩
          · rw [if_neg hno] at h ⊢
            cases a with
            | nil => simp at h
            | cons v outArgs =>
              simp only at h ⊢
              cases hs : fn1 flag v st with
              | error e => simp [hs] at h
              | ok s2 =>
                simp only [hs, Except.ok.injEq, Prod.mk.injEq] at h
                obtain ⟨t1, ht1, hR1⟩ := hstep flag hm _ _ _ _ hR hs
                exact ⟨t1, by simp [ht1, h.1], h.2 ▸ hR1⟩

theorem parseSingleShortArg_sim (f : FlagSet) (fn1 : Flag → String → σ → Except ParseError σ)
    (fn2 : Flag → String → τ → Except ParseError τ) (R : σ → τ → Prop)
    (hstep : ∀ flag ∈ f.formal, ∀ v s s1 t, R s t → fn1 flag v s = .ok s1 →
      ∃ t1, fn2 flag v t = .ok t1 ∧ R s1 t1)
    (sh : List Char) (a : List String) (st : σ) (t : τ) (outSh : List Char)
    (out : List String) (st1 : σ)
    (hR : R st t) (h : parseSingleShortArg f fn1 sh a st = .ok (outSh, out, st1)) :
    ∃ t1, parseSingleShortArg f fn2 sh a t = .ok (outSh, out, t1) ∧ R st1 t1 := by
  unfold parseSingleShortArg at h ⊢
  by_cases ht : "test.".data.isPrefixOf sh = true
  · rw [if_pos ht] at h ⊢
    simp only [Except.ok.injEq, Prod.mk.injEq] at h
    exact ⟨t, by simp [h.1, h.2.1], h.2.2 ▸ hR⟩
  · rw [if_neg ht] at h ⊢
    cases sh with
    | nil =>
      simp only [Except.ok.injEq, Prod.mk.injEq] at h
      exact ⟨t, by simp [h.1, h.2.1], h.2.2 ▸ hR⟩
    | cons c outShorts =>
      simp only at h ⊢
      cases hl : f.lookupShorthand c with
      | none =>
        simp only [hl] at h
        split at h <;> cases h
      | some flag =>
        have hm := lookupShorthand_mem f _ _ hl
        simp only [hl] at h ⊢
        by_cases h1 : (c :: outShorts).length > 2 ∧ outShorts.head? = some '='
        · have hd2 : List.drop 2 (c :: outShorts) = outShorts.tail := by
            cases outShorts <;> rfl
          rw [if_pos h1, hd2] at h ⊢
          cases hs : fn1 flag (String.mk outShorts.tail) st with
          | error e => simp [hs] at h
          | ok s2 =>
            simp only [hs, Except.ok.injEq, Prod.mk.injEq] at h
            obtain ⟨t1, ht1, hR1⟩ := hstep flag hm _ _ _ _ hR hs
            exact ⟨t1, by simp [ht1, h.1, h.2.1], h.2.2 ▸ hR1⟩
        · rw [if_neg h1] at h ⊢
          by_cases hno : flag.NoOptDefVal ≠ ""
          · rw [if_pos hno] at h ⊢
            cases hs : fn1 flag flag.NoOptDefVal st with
            | error e => simp [hs] at h
            | ok s2 =>
              simp only [hs, Except.ok.injEq, Prod.mk.injEq] at h
              obtain ⟨t1, ht1, hR1⟩ := hstep flag hm _ _ _ _ hR hs
              exact ⟨t1, by simp [ht1, h.1, h.2.1], h.2.2 ▸ hR1⟩
          · rw [if_neg hno] at h ⊢
            by_cases h2 : (c :: outShorts).length > 1
            · rw [if_pos h2] at h ⊢
              cases hs : fn1 flag (String.mk outShorts) st with
              | error e => simp [hs] at h
              | ok s2 =>
                simp only [hs, Except.ok.injEq, Prod.mk.injEq] at h
                obtain ⟨t1, ht1, hR1⟩ := hstep flag hm _ _ _ _ hR hs
                exact ⟨t1, by simp [ht1, h.1, h.2.1], h.2.2 ▸ hR1⟩
            · rw [if_neg h2] at h ⊢
              cases a with
              | nil => simp at h
              | cons v outArgs =>
                simp only at h ⊢
                cases hs : fn1 flag v st with
                | error e => simp [hs] at h
                | ok s2 =>
                  simp only [hs, Except.ok.injEq, Prod.mk.injEq] at h
                  obtain ⟨t1, ht1, hR1⟩ := hstep flag hm _ _ _ _ hR hs
                  exact ⟨t1, by simp [ht1, h.1, h.2.1], h.2.2 ▸ hR1⟩

theorem parseShortArgLoop_sim (f : FlagSet) (fn1 : Flag → String → σ → Except ParseError σ)
    (fn2 : Flag → String → τ → Except ParseError τ) (R : σ → τ → Prop)
    (hstep : ∀ flag ∈ f.formal, ∀ v s s1 t, R s t → fn1 flag v s = .ok s1 →
      ∃ t1, fn2 flag v t = .ok t1 ∧ R s1 t1) :
    ∀ (fuel : Nat) (sh : List Char) (a : List String) (st : σ) (t : τ)
      (out : List String) (st1 : σ), R st t →
      parseShortArgLoop f fn1 fuel sh a st = .ok (out, st1) →
      ∃ t1, parseShortArgLoop f fn2 fuel sh a t = .ok (out, t1) ∧ R st1 t1 := by
  intro fuel
  induction fuel with
  | zero =>
    intro sh a st t out st1 hR h
    cases sh with
    | nil =>
      simp only [parseShortArgLoop, Except.ok.injEq, Prod.mk.injEq] at h ⊢
      exact ⟨t, ⟨h.1, rfl⟩, h.2 ▸ hR⟩
    | cons c cs => simp [parseShortArgLoop] at h
  | succ n ih =>
    intro sh a st t out st1 hR h
    cases sh with
    | nil =>
      simp only [parseShortArgLoop, Except.ok.injEq, Prod.mk.injEq] at h ⊢
      exact ⟨t, ⟨h.1, rfl⟩, h.2 ▸ hR⟩
    | cons c cs =>
      simp only [parseShortArgLoop] at h ⊢
      cases hs : parseSingleShortArg f fn1 (c :: cs) a st with
      | error e => simp [hs] at h
      | ok r =>
        obtain ⟨sh2, a2, st2⟩ := r
        simp only [hs] at h
        obtain ⟨t2, ht2, hR2⟩ := parseSingleShortArg_sim f fn1 fn2 R hstep _ _ _ _ _ _ _ hR hs
        simp only [ht2]
        exact ih _ _ _ _ _ _ hR2 h

theorem parseArgs_sim (f : FlagSet) (fn1 : Flag → String → σ → Except ParseError σ)
    (fn2 : Flag → String → τ → Except ParseError τ) (R : σ → τ → Prop)
    (hstep : ∀ flag ∈ f.formal, ∀ v s s1 t, R s t → fn1 flag v s = .ok s1 →
      ∃ t1, fn2 flag v t = .ok t1 ∧ R s1 t1) :
    ∀ (fuel : Nat) (args : List String) (st : σ) (t : τ) (st1 : σ), R st t →
      parseArgs f fn1 fuel args st = .ok st1 →
      ∃ t1, parseArgs f fn2 fuel args t = .ok t1 ∧ R st1 t1 := by
  intro fuel
  induction fuel with
  | zero =>
    intro args st t st1 hR h
    cases args with
    | nil =>
      simp only [parseArgs, Except.ok.injEq] at h ⊢
      exact ⟨t, rfl, h ▸ hR⟩
    | cons s rest => simp [parseArgs] at h
  | succ n ih =>
    intro args st t st1 hR h
    cases args with
    | nil =>
      simp only [parseArgs, Except.ok.injEq] at h ⊢
      exact ⟨t, rfl, h ▸ hR⟩
    | cons s rest =>
      simp only [parseArgs] at h ⊢
      cases hd : s.data with
      | nil =>
        simp only [hd] at h ⊢
        exact ih _ _ _ _ hR h
      | cons c0 l =>
        cases l with
        | nil =>
          simp only [hd] at h ⊢
          exact ih _ _ _ _ hR h
        | cons c1 tl =>
          simp only [hd] at h ⊢
          by_cases h0 : c0 ≠ '-'
          · rw [if_pos h0] at h ⊢
            exact ih _ _ _ _ hR h
          · rw [if_neg h0] at h ⊢
            by_cases h1 : c1 = '-'
            · rw [if_pos h1] at h ⊢
              by_cases h2 : tl = []
              · rw [if_pos h2] at h ⊢
                simp only [Except.ok.injEq] at h ⊢
                exact ⟨t, rfl, h ▸ hR⟩
              · rw [if_neg h2] at h ⊢
                cases hs : parseLongArg f fn1 s rest st with
                | error e => simp [hs] at h
                | ok r =>
                  obtain ⟨a2, st2⟩ := r
                  simp only [hs] at h
                  obtain ⟨t2, ht2, hR2⟩ :=
                    parseLongArg_sim f fn1 fn2 R hstep _ _ _ _ _ _ hR hs
                  simp only [ht2]
                  exact ih _ _ _ _ hR2 h
            · rw [if_neg h1] at h ⊢
              cases hs : parseShortArg f fn1 s rest st with
              | error e => simp [hs] at h
              | ok r =>
                obtain ⟨a2, st2⟩ := r
                simp only [hs] at h
                obtain ⟨t2, ht2, hR2⟩ :=
                  parseShortArgLoop_sim f fn1 fn2 R hstep _ _ _ _ _ _ _ hR hs
                have ht3 : parseShortArg f fn2 s rest t = .ok (a2, t2) := ht2
                simp only [ht3]
                exact ih _ _ _ _ hR2 h
end Sim

/-! ## What a parse stores is what the arguments assign -/

theorem lastValue_append (l : List (String × String)) (n v name dflt : String) :
    lastValue (l ++ [(n, v)]) name dflt = if n = name then v else lastValue l name dflt := by
  simp [lastValue, List.foldl_append]

theorem Set_records (env : Env) (version n : String) (flag : Flag)
    (hm : flag ∈ registeredFlags env version) (v : String) (c c1 : CommandLine)
    (l : List (String × String))
    (hR : c.Format = lastValue l "format" "column" ∧
      c.Precision = lastValue l "precision" "ns" ∧
      c.WriteConsistency = lastValue l "consistency" "all" ∧
      ParseInt (lastValue l "pps" "0") = .ok c.PPS)
    (h : FlagSet.Set ⟨n, registeredFlags env version⟩ flag.Name v c = .ok c1) :
    c1.Format = lastValue (l ++ [(flag.Name, v)]) "format" "column" ∧
      c1.Precision = lastValue (l ++ [(flag.Name, v)]) "precision" "ns" ∧
      c1.WriteConsistency = lastValue (l ++ [(flag.Name, v)]) "consistency" "all" ∧
      ParseInt (lastValue (l ++ [(flag.Name, v)]) "pps" "0") = .ok c1.PPS := by
  simp only [lastValue_append]
  simp only [registeredFlags, List.mem_cons, List.mem_singleton, List.not_mem_nil, or_false] at hm
  rcases hm with rfl | rfl | rfl | rfl | rfl | rfl | rfl | rfl | rfl | rfl | rfl | rfl | rfl |
    rfl | rfl | rfl | rfl
  all_goals
    simp only [FlagSet.Set, FlagSet.lookup, registeredFlags, List.find?, Value.Set] at h
    simp +decide at h
  all_goals
    first
    | (subst h
       simp +decide [StringField.store, ← hR.1, ← hR.2.1, ← hR.2.2.1, hR.2.2.2])
    | (cases hp : ParseInt v with
       | error e => simp [hp] at h
       | ok k =>
         simp only [hp, Except.ok.injEq] at h
         subst h
         simp +decide [IntField.store, ← hR.1, ← hR.2.1, ← hR.2.2.1, hR.2.2.2, hp])
    | (cases hp : ParseBool v with
       | error e => simp [hp] at h
       | ok k =>
         simp only [hp, Except.ok.injEq] at h
         subst h
         simp +decide [BoolField.store, ← hR.1, ← hR.2.1, ← hR.2.2.1, hR.2.2.2])

theorem lastValue_absent (name : String) :
    ∀ (l : List (String × String)) (dflt : String), (∀ v, (name, v) ∉ l) →
      lastValue l name dflt = dflt := by
  intro l
  induction l using List.reverseRecOn with
  | nil => intro dflt _; rfl
  | append_singleton l p ih =>
    intro dflt h
    obtain ⟨n, v⟩ := p
    rw [lastValue_append]
    by_cases hn : n = name
    · subst hn
      exact absurd (List.mem_append_right l (List.mem_singleton.mpr rfl)) (h v)
    · rw [if_neg hn]
      exact ih dflt (fun v hv => h v (List.mem_append_left _ hv))

theorem lastValue_mem (name dflt : String) :
    ∀ l : List (String × String),
      lastValue l name dflt = dflt ∨ (name, lastValue l name dflt) ∈ l := by
  intro l
  induction l using List.reverseRecOn with
  | nil => exact Or.inl rfl
  | append_singleton l p ih =>
    obtain ⟨n, v⟩ := p
    rw [lastValue_append]
    by_cases hn : n = name
    · subst hn
      rw [if_pos rfl]
      exact Or.inr (List.mem_append_right l (List.mem_singleton.mpr rfl))
    · rw [if_neg hn]
      exact ih.imp id (fun hm => List.mem_append_left _ hm)

/-- A parse that succeeds stores, in the four fields the specification
constrains, what the last assignment to the option asks for, and the
registered default when the arguments do not assign the option. -/
theorem session_records (env : Env) (version : String) (args : List String)
    (c : CommandLine) (h : session env version args = .ok c) :
    ∃ l, (registerFlags env version).1.assignments args = .ok l ∧
      c.Format = lastValue l "format" "column" ∧
      c.Precision = lastValue l "precision" "ns" ∧
      c.WriteConsistency = lastValue l "consistency" "all" ∧
      ParseInt (lastValue l "pps" "0") = .ok c.PPS := by
  simp only [session, registerFlags_eq, FlagSet.Parse] at h
  simp only [registerFlags_eq, FlagSet.assignments]
  refine parseArgs_sim _ _ _
    (fun (c : CommandLine) (l : List (String × String)) =>
      c.Format = lastValue l "format" "column" ∧
      c.Precision = lastValue l "precision" "ns" ∧
      c.WriteConsistency = lastValue l "consistency" "all" ∧
      ParseInt (lastValue l "pps" "0") = .ok c.PPS)
    ?_ _ _ _ _ _ ?_ h
  · intro flag hm v c0 c1 l hR hs
    exact ⟨_, rfl, Set_records env version _ flag hm v c0 c1 l hR hs⟩
  · have h0 : ParseInt "0" = .ok 0 := by decide
    exact ⟨rfl, rfl, rfl, h0⟩

/-- A text without a leading minus sign that `ParseInt` accepts denotes a
number that is not negative. -/
theorem ParseInt_nonneg (v : String) (n : Int) (h : ParseInt v = .ok n)
    (hm : v.data.head? ≠ some '-') : 0 ≤ n := by
  unfold ParseInt at h
  cases hd : v.data with
  | nil => simp [hd] at h
  | cons c t =>
    have hc : c ≠ '-' := by
      intro hc
      apply hm
      simp [hd, hc]
    simp only [hd, hc, decide_False, Bool.false_eq_true, false_and, if_false] at h
    split at h
    · cases h
    · split at h
      · cases h
      · simp only [Except.ok.injEq] at h
        rw [← h]
        exact Int.ofNat_nonneg _

/-- The parse of the arguments of `main` returns a session or one of the
library's own errors: its loops have fuel enough. -/
theorem session_fuel (env : Env) (version : String) (args : List String) :
    session env version args ≠ .error .fuelExhausted :=
  Parse_fuel _ _ _

/-- The text before the first `=` of a text without `=` is the text. -/
theorem splitN2_of_not_mem : ∀ l : List Char, '=' ∉ l → splitN2 l = (l, none) := by
  intro l
  induction l with
  | nil => intro _; rfl
  | cons c cs ih =>
    intro h
    have hc : c ≠ '=' := fun hc => h (by simp [hc])
    have ht : '=' ∉ cs := fun ht => h (List.mem_cons_of_mem _ ht)
    simp [splitN2, hc, ih ht]

set_option maxRecDepth 20000 in
/-- The options the usage text documents, read off the text. -/
theorem usageOptions_eq :
    usageOptions =
      [ ⟨"v", "version", []⟩, ⟨"H", "host", ["host name"]⟩, ⟨"p", "port", ["port #"]⟩,
        ⟨"d", "database", ["database name"]⟩, ⟨"", "password", ["password"]⟩,
        ⟨"u", "username", ["username"]⟩, ⟨"", "ssl", []⟩, ⟨"", "unsafeSsl", []⟩,
        ⟨"e", "execute", ["command"]⟩, ⟨"", "format", ["json", "csv", "column"]⟩,
        ⟨"", "precision", ["rfc3339", "h", "m", "s", "ms", "u", "ns"]⟩,
        ⟨"", "consistency", ["any", "one", "quorum", "all"]⟩, ⟨"", "pretty", []⟩,
        ⟨"", "import", []⟩, ⟨"", "pps", []⟩, ⟨"", "path", []⟩, ⟨"", "compressed", []⟩ ] := by
  decide

/-- A long option whose name is not registered (and is not `help`) is
rejected as an unknown flag. -/
theorem session_unknown_flag (env : Env) (version name : String)
    (hne : name ≠ "") (h1 : name.data.head? ≠ some '-') (h2 : '=' ∉ name.data)
    (hh : name ≠ "help")
    (hr : ∀ f ∈ (registerFlags env version).1.formal, f.Name ≠ name) :
    session env version ["--" ++ name] = .error (.unknownFlag name) := by
  have hl : (registerFlags env version).1.lookup name = none := by
    unfold FlagSet.lookup
    rw [List.find?_eq_none]
    intro f hf
    simpa using hr f hf
  rw [registerFlags_eq] at hl
  obtain ⟨cs⟩ := name
  cases cs with
  | nil => exact absurd rfl hne
  | cons c t =>
    have hc : ¬ (c = '-' ∨ c = '=') := by
      intro hc
      rcases hc with hc | hc
      · exact h1 (by simp [hc])
      · exact h2 (by simp [hc])
    have hs : splitN2 (c :: t) = (c :: t, none) := splitN2_of_not_mem _ h2
    simp [session, registerFlags_eq, FlagSet.Parse, parseArgs, parseLongArg, hc, hs, hl, hh]

/-! ## `init` -/

/-- C8: after `init` the version string is not empty: it is `unknown` if the
linker left it empty and the linker's value otherwise, and running `init` a
second time changes nothing. -/
theorem init_spec (version : String) :
    init version ≠ "" ∧
    (version = "" → init version = "unknown") ∧
    (version ≠ "" → init version = version) ∧
    init (init version) = init version := by
  unfold init
  by_cases h : version = ""
  · subst h
    refine ⟨by decide, fun _ => by decide, fun h => absurd rfl h, by decide⟩
  · simp [h]

/-- C8 at the two kinds of input: an empty and a linker-supplied version. -/
theorem init_spec_witness :
    init "" = "unknown" ∧ init "1.0" = "1.0" ∧ init (init "") = init "" :=
  ⟨(init_spec "").2.1 rfl, (init_spec "1.0").2.2.1 (by decide), (init_spec "").2.2.2⟩

/-! ## The hand-off to the client core -/

/-- C1: for arguments that do not end in a session with the version option
set, `main` exits with status 1, after writing the text of the error and a
newline to the error stream, exactly when the parse succeeds and `Run`
returns an error on the parsed session; when `Run` returns none, `main`
writes nothing to the error stream and returns (status 0). -/
theorem main_run_outcome (env : Env) (version : String) (args : List String)
    (hv : ∀ c, session env version args = .ok c → c.ShowVersion = false) :
    (exitStatus (main env version args) = 1 ↔
      ∃ c e, session env version args = .ok c ∧ env.Run c = some e) ∧
    (∀ c e, session env version args = .ok c → env.Run c = some e →
      main env version args = [.Run c, .Stderr (e ++ "\n"), .Exit 1] ∧
      stderrOutput (main env version args) = e ++ "\n") ∧
    (∀ c, session env version args = .ok c → env.Run c = none →
      main env version args = [.Run c] ∧
      stderrOutput (main env version args) = "" ∧
      exitStatus (main env version args) = 0) := by
  unfold main
  cases hs : session env version args with
  | error e =>
    by_cases hh : e = .ErrHelp ∧ env.helpExitsZero = true
    · simp [exitStatus, hh]
    · simp [exitStatus, hh]
  | ok c =>
    have hc := hv c hs
    cases hr : env.Run c with
    | none =>
      refine ⟨by simp [exitStatus, hc, hr], fun c1 e h1 h2 => ?_, fun c1 h1 _ => ?_⟩
      · cases h1
        rw [hr] at h2
        cases h2
      · cases h1
        simp [exitStatus, stderrOutput, hc, hr]
    | some e =>
      refine ⟨by simp [exitStatus, hc, hr], fun c1 e1 h1 h2 => ?_, fun c1 h1 h2 => ?_⟩
      · cases h1
        rw [hr] at h2
        cases h2
        simp [stderrOutput, hc, hr]
      · cases h1
        rw [hr] at h2
        cases h2

/-- C1 at `--execute fail` (where `Run` of `sampleEnv` fails with `boom`) and
at `--execute ok` (where it succeeds). -/
theorem main_run_outcome_witness :
    main sampleEnv "1.0" ["--execute", "fail"] =
      [.Run { defaultSession sampleEnv "1.0" with Execute := "fail" },
        .Stderr "boom\n", .Exit 1] ∧
    exitStatus (main sampleEnv "1.0" ["--execute", "ok"]) = 0 ∧
    stderrOutput (main sampleEnv "1.0" ["--execute", "ok"]) = "" :=
  have h1 : session sampleEnv "1.0" ["--execute", "fail"] =
      .ok { defaultSession sampleEnv "1.0" with Execute := "fail" } := by decide
  have h2 : session sampleEnv "1.0" ["--execute", "ok"] =
      .ok { defaultSession sampleEnv "1.0" with Execute := "ok" } := by decide
  ⟨((main_run_outcome sampleEnv "1.0" ["--execute", "fail"]
      (fun c h => by rw [h1] at h; cases h; rfl)).2.1 _ "boom" h1 (by decide)).1,
    ((main_run_outcome sampleEnv "1.0" ["--execute", "ok"]
      (fun c h => by rw [h2] at h; cases h; rfl)).2.2 _ h2 (by decide)).2.2,
    ((main_run_outcome sampleEnv "1.0" ["--execute", "ok"]
      (fun c h => by rw [h2] at h; cases h; rfl)).2.2 _ h2 (by decide)).2.1⟩

/-- C2, as the claim states it, fails at `-v --pps abc`: the version option is
set, but the parser rejects `abc` for `--pps` and the process leaves inside
`Parse` with status 2, before `main` tests the version option; `Version` is
not called. -/
theorem version_with_rejected_option :
    session sampleEnv "1.0" ["-v", "--pps", "abc"] =
      .error (.invalidArgument "abc" "pps" .ErrSyntaxKind) ∧
    main sampleEnv "1.0" ["-v", "--pps", "abc"] = [.Exit 2] ∧
    versionDisplayed (main sampleEnv "1.0" ["-v", "--pps", "abc"]) = false ∧
    exitStatus (main sampleEnv "1.0" ["-v", "--pps", "abc"]) ≠ 0 := by
  decide

/-- C2 (amended): for arguments that the parser accepts and that leave the
version option set, whatever else they set, `main` calls `Version`, exits
with status 0 and does not call `Run`. -/
theorem main_version (env : Env) (version : String) (args : List String)
    (c : CommandLine) (hc : session env version args = .ok c)
    (hv : c.ShowVersion = true) :
    main env version args = [.Version c, .Exit 0] ∧
    versionDisplayed (main env version args) = true ∧
    exitStatus (main env version args) = 0 ∧
    runInvoked (main env version args) = false := by
  unfold main
  rw [hc]
  simp [hv, versionDisplayed, exitStatus, runInvoked]

/-- C2 (amended) at `-v --execute fail --import`: the version is shown, the status is 0
and `Run` (which would fail here) is not called. -/
theorem main_version_witness :
    main sampleEnv "1.0" ["-v", "--execute", "fail", "--import"] =
      [.Version { defaultSession sampleEnv "1.0" with
          ShowVersion := true, Execute := "fail", Import := true },
        .Exit 0] ∧
    exitStatus (main sampleEnv "1.0" ["-v", "--execute", "fail", "--import"]) = 0 ∧
    runInvoked (main sampleEnv "1.0" ["-v", "--execute", "fail", "--import"]) = false :=
  ⟨(main_version sampleEnv "1.0" ["-v", "--execute", "fail", "--import"]
      { defaultSession sampleEnv "1.0" with
        ShowVersion := true, Execute := "fail", Import := true } (by decide) (by decide)).1,
    (main_version sampleEnv "1.0" ["-v", "--execute", "fail", "--import"]
      { defaultSession sampleEnv "1.0" with
        ShowVersion := true, Execute := "fail", Import := true } (by decide) (by decide)).2.2.1,
    (main_version sampleEnv "1.0" ["-v", "--execute", "fail", "--import"]
      { defaultSession sampleEnv "1.0" with
        ShowVersion := true, Execute := "fail", Import := true } (by decide) (by decide)).2.2.2⟩

/-- C5: with no arguments `main` hands `Run` a session with format `column`,
precision `ns`, write consistency `all`, points-per-second limit 0, the
switches pretty, ssl, unsafeSsl, import, compressed and version off, an
empty path to import from, and the wire client's default host and port. -/
theorem main_no_arguments (env : Env) (version : String) :
    ∃ c, session env version [] = .ok c ∧
      (main env version []).head? = some (.Run c) ∧
      c.Format = "column" ∧ c.Precision = "ns" ∧ c.WriteConsistency = "all" ∧
      c.PPS = 0 ∧ c.Pretty = false ∧ c.Ssl = false ∧ c.UnsafeSsl = false ∧
      c.Import = false ∧ c.Compressed = false ∧ c.ShowVersion = false ∧
      c.Path = "" ∧ c.Host = env.DefaultHost ∧ c.Port = env.DefaultPort := by
  refine ⟨defaultSession env version, session_nil env version, ?_, ?_⟩
  · have hv : (defaultSession env version).ShowVersion = false := rfl
    unfold main
    rw [session_nil]
    simp only [hv]
    cases env.Run (defaultSession env version) <;> simp
  · simp [defaultSession]

/-! ## What the parsed session can hold -/

/-- C3, as the claim states it, fails at `--format xml`: the parser accepts
the arguments and `main` hands `Run` a session whose format is `xml`, which is
none of `json`, `csv`, `column`. -/
theorem format_not_validated :
    session sampleEnv "1.0" ["--format", "xml"] =
      .ok { defaultSession sampleEnv "1.0" with Format := "xml" } ∧
    main sampleEnv "1.0" ["--format", "xml"] =
      [.Run { defaultSession sampleEnv "1.0" with Format := "xml" }] ∧
    ({ defaultSession sampleEnv "1.0" with Format := "xml" } : CommandLine).Format ∉
      outputFormats := by
  decide

/-- C3 (amended): for arguments that the parser accepts, the format, the
precision and the write consistency of the session are each the last value the
arguments assign to the option (`--format`, `--precision`, `--consistency`),
stored as given, and the registered default (`column`, `ns`, `all`) when the
arguments do not assign it; so each lies in its enumerated set whenever every
value assigned to the option does. -/
theorem session_enumerated_fields (env : Env) (version : String) (args : List String)
    (c : CommandLine) (h : session env version args = .ok c) :
    ∃ l, (registerFlags env version).1.assignments args = .ok l ∧
      c.Format = lastValue l "format" "column" ∧
      c.Precision = lastValue l "precision" "ns" ∧
      c.WriteConsistency = lastValue l "consistency" "all" ∧
      ((∀ v, ("format", v) ∈ l → v ∈ outputFormats) → c.Format ∈ outputFormats) ∧
      ((∀ v, ("precision", v) ∈ l → v ∈ timePrecisions) → c.Precision ∈ timePrecisions) ∧
      ((∀ v, ("consistency", v) ∈ l → v ∈ writeConsistencies) →
        c.WriteConsistency ∈ writeConsistencies) := by
  obtain ⟨l, hl, hf, hp, hw, _⟩ := session_records env version args c h
  refine ⟨l, hl, hf, hp, hw, fun hv => ?_, fun hv => ?_, fun hv => ?_⟩
  · rw [hf]
    rcases lastValue_mem "format" "column" l with h1 | h1
    · rw [h1]
      decide
    · exact hv _ h1
  · rw [hp]
    rcases lastValue_mem "precision" "ns" l with h1 | h1
    · rw [h1]
      decide
    · exact hv _ h1
  · rw [hw]
    rcases lastValue_mem "consistency" "all" l with h1 | h1
    · rw [h1]
      decide
    · exact hv _ h1

/-- C3 (amended) at `--format json --precision=ms`. -/
theorem session_enumerated_fields_witness :
    session sampleEnv "1.0" ["--format", "json", "--precision=ms"] =
      .ok { defaultSession sampleEnv "1.0" with Format := "json", Precision := "ms" } ∧
    ∃ l, (registerFlags sampleEnv "1.0").1.assignments ["--format", "json", "--precision=ms"] =
        .ok l ∧
      "json" = lastValue l "format" "column" ∧
      "ms" = lastValue l "precision" "ns" ∧
      "all" = lastValue l "consistency" "all" ∧
      ((∀ v, ("format", v) ∈ l → v ∈ outputFormats) → "json" ∈ outputFormats) ∧
      ((∀ v, ("precision", v) ∈ l → v ∈ timePrecisions) → "ms" ∈ timePrecisions) ∧
      ((∀ v, ("consistency", v) ∈ l → v ∈ writeConsistencies) →
        "all" ∈ writeConsistencies) :=
  ⟨by decide,
    session_enumerated_fields sampleEnv "1.0" ["--format", "json", "--precision=ms"]
      { defaultSession sampleEnv "1.0" with Format := "json", Precision := "ms" }
      (by decide)⟩

/-- C4, as the claim states it, fails at `--pps -5`: the parser accepts the
arguments and `main` hands `Run` a session whose points-per-second limit is
-5. -/
theorem pps_negative :
    session sampleEnv "1.0" ["--pps", "-5"] =
      .ok { defaultSession sampleEnv "1.0" with PPS := -5 } ∧
    main sampleEnv "1.0" ["--pps", "-5"] =
      [.Run { defaultSession sampleEnv "1.0" with PPS := -5 }] ∧
    ¬ (0 ≤ ({ defaultSession sampleEnv "1.0" with PPS := -5 } : CommandLine).PPS) := by
  decide

/-- C4 (amended): for arguments that the parser accepts, the
points-per-second limit of the session is the integer that the last value
assigned to `--pps` denotes, and 0 when the arguments do not assign one; it is
at least 0 whenever that value has no leading minus sign. -/
theorem session_pps (env : Env) (version : String) (args : List String)
    (c : CommandLine) (h : session env version args = .ok c) :
    ∃ l, (registerFlags env version).1.assignments args = .ok l ∧
      ParseInt (lastValue l "pps" "0") = .ok c.PPS ∧
      ((∀ v, ("pps", v) ∉ l) → c.PPS = 0) ∧
      ((lastValue l "pps" "0").data.head? ≠ some '-' → 0 ≤ c.PPS) := by
  obtain ⟨l, hl, _, _, _, hp⟩ := session_records env version args c h
  refine ⟨l, hl, hp, fun hn => ?_, fun hm => ParseInt_nonneg _ _ hp hm⟩
  rw [lastValue_absent "pps" l "0" hn] at hp
  have h0 : ParseInt "0" = .ok 0 := by decide
  rw [h0] at hp
  exact (Except.ok.inj hp).symm

/-- C4 (amended) at `--pps 500`. -/
theorem session_pps_witness :
    session sampleEnv "1.0" ["--pps", "500"] =
      .ok { defaultSession sampleEnv "1.0" with PPS := 500 } ∧
    ∃ l, (registerFlags sampleEnv "1.0").1.assignments ["--pps", "500"] = .ok l ∧
      ParseInt (lastValue l "pps" "0") = .ok 500 ∧
      ((∀ v, ("pps", v) ∉ l) → (500 : Int) = 0) ∧
      ((lastValue l "pps" "0").data.head? ≠ some '-' → (0 : Int) ≤ 500) :=
  ⟨by decide,
    session_pps sampleEnv "1.0" ["--pps", "500"]
      { defaultSession sampleEnv "1.0" with PPS := 500 } (by decide)⟩


/-! ## One option at a time -/

/-- C6: an argument list that gives one option changes the session of the
empty argument list in the one field the option is bound to, and that field
holds the value given: the text itself for a string option, the integer that
`ParseInt` reads for `port` and `pps`, the truth value that `ParseBool` reads
for a switch.  It holds for `--name=value`, for `--name value` with a string
or integer option, for the short forms `-H`, `-p`, `-u`, `-d`, `-e` followed by
the value, and for a bare switch (`--ssl`, `-v`), which stores `true`. -/
theorem option_sets_own_field (env : Env) (version : String) (c0 : CommandLine)
    (h0 : session env version [] = .ok c0) :
    (∀ v, ∀ a ∈ [["--host=" ++ v], ["--host", v], ["-H", v]],
      session env version a = .ok { c0 with Host := v }) ∧
    (∀ v n, ParseInt v = .ok n → ∀ a ∈ [["--port=" ++ v], ["--port", v], ["-p", v]],
      session env version a = .ok { c0 with Port := n }) ∧
    (∀ v, ∀ a ∈ [["--username=" ++ v], ["--username", v], ["-u", v]],
      session env version a = .ok { c0 with Username := v }) ∧
    (∀ v, ∀ a ∈ [["--password=" ++ v], ["--password", v]],
      session env version a = .ok { c0 with Password := v }) ∧
    (∀ v, ∀ a ∈ [["--database=" ++ v], ["--database", v], ["-d", v]],
      session env version a = .ok { c0 with Database := v }) ∧
    (∀ v b, ParseBool v = .ok b →
      session env version ["--ssl=" ++ v] = .ok { c0 with Ssl := b }) ∧
    (∀ v b, ParseBool v = .ok b →
      session env version ["--unsafeSsl=" ++ v] = .ok { c0 with UnsafeSsl := b }) ∧
    (∀ v, ∀ a ∈ [["--format=" ++ v], ["--format", v]],
      session env version a = .ok { c0 with Format := v }) ∧
    (∀ v, ∀ a ∈ [["--precision=" ++ v], ["--precision", v]],
      session env version a = .ok { c0 with Precision := v }) ∧
    (∀ v, ∀ a ∈ [["--consistency=" ++ v], ["--consistency", v]],
      session env version a = .ok { c0 with WriteConsistency := v }) ∧
    (∀ v b, ParseBool v = .ok b →
      session env version ["--pretty=" ++ v] = .ok { c0 with Pretty := b }) ∧
    (∀ v, ∀ a ∈ [["--execute=" ++ v], ["--execute", v], ["-e", v]],
      session env version a = .ok { c0 with Execute := v }) ∧
    (∀ v b, ParseBool v = .ok b →
      session env version ["--version=" ++ v] = .ok { c0 with ShowVersion := b }) ∧
    (∀ v b, ParseBool v = .ok b →
      session env version ["--import=" ++ v] = .ok { c0 with Import := b }) ∧
    (∀ v n, ParseInt v = .ok n → ∀ a ∈ [["--pps=" ++ v], ["--pps", v]],
      session env version a = .ok { c0 with PPS := n }) ∧
    (∀ v, ∀ a ∈ [["--path=" ++ v], ["--path", v]],
      session env version a = .ok { c0 with Path := v }) ∧
    (∀ v b, ParseBool v = .ok b →
      session env version ["--compressed=" ++ v] = .ok { c0 with Compressed := b }) ∧
    session env version ["--ssl"] = .ok { c0 with Ssl := true } ∧
    session env version ["--unsafeSsl"] = .ok { c0 with UnsafeSsl := true } ∧
    session env version ["--pretty"] = .ok { c0 with Pretty := true } ∧
    (∀ a ∈ [["--version"], ["-v"]],
      session env version a = .ok { c0 with ShowVersion := true }) ∧
    session env version ["--import"] = .ok { c0 with Import := true } ∧
    session env version ["--compressed"] = .ok { c0 with Compressed := true } := by
  rw [session_nil] at h0
  cases h0
  have hb : ParseBool "true" = .ok true := by decide
  simp only [List.mem_cons, List.mem_singleton, forall_eq_or_imp, forall_eq, List.not_mem_nil,
    false_implies, implies_true, and_true]
  repeat' apply And.intro
  all_goals intros
  all_goals
    simp_all [session, registerFlags_eq, FlagSet.Parse, parseArgs, parseLongArg, splitN2,
      FlagSet.lookup, registeredFlags, FlagSet.Set, Value.Set, StringField.store,
      IntField.store, BoolField.store, defaultSession, parseShortArg, parseShortArgLoop,
      parseSingleShortArg, FlagSet.lookupShorthand, List.isPrefixOf]

/-- C6 at `--port=0x1F`, `-p 8087`, `--ssl=false`, `--host=` and `--format xml`
for the sample environment. -/
theorem option_sets_own_field_witness :
    session sampleEnv "1.0" [] = .ok (defaultSession sampleEnv "1.0") ∧
    session sampleEnv "1.0" ["--port=0x1F"] =
      .ok { defaultSession sampleEnv "1.0" with Port := 31 } ∧
    session sampleEnv "1.0" ["-p", "8087"] =
      .ok { defaultSession sampleEnv "1.0" with Port := 8087 } ∧
    session sampleEnv "1.0" ["--ssl=false"] =
      .ok { defaultSession sampleEnv "1.0" with Ssl := false } ∧
    session sampleEnv "1.0" ["--host="] =
      .ok { defaultSession sampleEnv "1.0" with Host := "" } ∧
    session sampleEnv "1.0" ["--format", "xml"] =
      .ok { defaultSession sampleEnv "1.0" with Format := "xml" } :=
  ⟨by decide,
    (option_sets_own_field sampleEnv "1.0" _ (by decide)).2.1 "0x1F" 31 (by decide) _
      (by simp),
    (option_sets_own_field sampleEnv "1.0" _ (by decide)).2.1 "8087" 8087 (by decide) _
      (by simp),
    (option_sets_own_field sampleEnv "1.0" _ (by decide)).2.2.2.2.2.1 "false" false
      (by decide),
    (option_sets_own_field sampleEnv "1.0" _ (by decide)).1 "" _ (by simp),
    (option_sets_own_field sampleEnv "1.0" _ (by decide)).2.2.2.2.2.2.2.1 "xml" _ (by simp)⟩

/-! ## Arguments the parser rejects -/

/-- C7, as the claim states it, fails at `--help`, `-h` and `-host x` with a
newer release of the flag library: none of `help`, `h` is a registered option
name, the parse ends with `ErrHelp`, and the process leaves with status 0. -/
theorem help_request_exits_zero :
    session sampleEnvNewer "1.0" ["--help"] = .error .ErrHelp ∧
    main sampleEnvNewer "1.0" ["--help"] = [.Exit 0] ∧
    exitStatus (main sampleEnvNewer "1.0" ["--help"]) = 0 ∧
    (registerFlags sampleEnvNewer "1.0").1.lookup "help" = none ∧
    session sampleEnvNewer "1.0" ["-h"] = .error .ErrHelp ∧
    exitStatus (main sampleEnvNewer "1.0" ["-h"]) = 0 ∧
    (registerFlags sampleEnvNewer "1.0").1.lookupShorthand 'h' = none ∧
    session sampleEnvNewer "1.0" ["-host", "x"] = .error .ErrHelp ∧
    exitStatus (main sampleEnvNewer "1.0" ["-host", "x"]) = 0 := by
  decide

/-- C7 (amended): when the parser rejects the arguments, `main` does not call
`Run` (nor `Version`), and unless the rejection is the library's answer to a
help request the exit status is 2 (after a help request it is 0 or 2, as the
library's release has it); an option name that is not registered and is not
`help`, and a value for `--port` or `--pps` that `ParseInt` does not accept,
are so rejected. -/
theorem main_rejected (env : Env) (version : String) :
    (∀ args e, session env version args = .error e →
      runInvoked (main env version args) = false ∧
      versionDisplayed (main env version args) = false ∧
      (e ≠ .ErrHelp → main env version args = [.Exit 2] ∧
        exitStatus (main env version args) ≠ 0) ∧
      (e = .ErrHelp →
        exitStatus (main env version args) = if env.helpExitsZero then 0 else 2)) ∧
    (∀ name : String, name ≠ "" → name.data.head? ≠ some '-' → '=' ∉ name.data →
      name ≠ "help" → (∀ f ∈ (registerFlags env version).1.formal, f.Name ≠ name) →
      session env version ["--" ++ name] = .error (.unknownFlag name)) ∧
    (∀ v e, ParseInt v = .error e → ∀ a ∈ [["--port=" ++ v], ["--port", v], ["-p", v]],
      session env version a = .error (.invalidArgument v "port" e)) ∧
    (∀ v e, ParseInt v = .error e → ∀ a ∈ [["--pps=" ++ v], ["--pps", v]],
      session env version a = .error (.invalidArgument v "pps" e)) := by
  refine ⟨fun args e he => ?_, fun name hne h1 h2 hh hr =>
    session_unknown_flag env version name hne h1 h2 hh hr, ?_, ?_⟩
  · unfold main
    rw [he]
    refine ⟨by simp [runInvoked], by simp [versionDisplayed], fun h => ?_, fun h => ?_⟩
    · simp [h, exitStatus]
    · cases hz : env.helpExitsZero <;> simp [h, hz, exitStatus]
  · simp only [List.mem_cons, List.mem_singleton, forall_eq_or_imp, forall_eq,
      List.not_mem_nil, false_implies, implies_true, and_true]
    intro v e h
    repeat' apply And.intro
    all_goals
      simp [session, registerFlags_eq, FlagSet.Parse, parseArgs, parseLongArg, splitN2,
        FlagSet.lookup, registeredFlags, FlagSet.Set, Value.Set, parseShortArg,
        parseShortArgLoop, parseSingleShortArg, FlagSet.lookupShorthand, List.isPrefixOf, h]
  · simp only [List.mem_cons, List.mem_singleton, forall_eq_or_imp, forall_eq,
      List.not_mem_nil, false_implies, implies_true, and_true]
    intro v e h
    repeat' apply And.intro
    all_goals
      simp [session, registerFlags_eq, FlagSet.Parse, parseArgs, parseLongArg, splitN2,
        FlagSet.lookup, registeredFlags, FlagSet.Set, Value.Set, h]

/-- C7 (amended) at `--bogus` and at `--port=abc`: status 2, `Run` not
called. -/
theorem main_rejected_witness :
    session sampleEnv "1.0" ["--bogus"] = .error (.unknownFlag "bogus") ∧
    main sampleEnv "1.0" ["--bogus"] = [.Exit 2] ∧
    runInvoked (main sampleEnv "1.0" ["--bogus"]) = false ∧
    session sampleEnv "1.0" ["--port=abc"] =
      .error (.invalidArgument "abc" "port" .ErrSyntaxKind) ∧
    exitStatus (main sampleEnv "1.0" ["--port=abc"]) ≠ 0 :=
  ⟨(main_rejected sampleEnv "1.0").2.1 "bogus" (by decide) (by decide) (by decide)
      (by decide) (by decide),
    (((main_rejected sampleEnv "1.0").1 ["--bogus"] (.unknownFlag "bogus") (by decide)).2.2.1
      (by decide)).1,
    ((main_rejected sampleEnv "1.0").1 ["--bogus"] (.unknownFlag "bogus") (by decide)).1,
    (main_rejected sampleEnv "1.0").2.2.1 "abc" .ErrSyntaxKind (by decide) _ (by simp),
    (((main_rejected sampleEnv "1.0").1 ["--port=abc"]
      (.invalidArgument "abc" "port" .ErrSyntaxKind) (by decide)).2.2.1 (by decide)).2⟩

/-! ## The usage text and the flag set -/

/-- C9: the usage text and the registered flags agree: every option the text
documents is a registered flag with the same long name and the same short
name (or none), every registered flag is documented so, the short names of
the text are `-v`, `-H`, `-p`, `-d`, `-u`, `-e`, and the alternatives the text
gives for `format`, `precision` and `consistency` contain the registered
default of the flag. -/
theorem usage_agrees (env : Env) (version : String) :
    (∀ o ∈ usageOptions, ∃ f ∈ (registerFlags env version).1.formal,
      f.Name = o.long ∧ f.Shorthand = o.short) ∧
    (∀ f ∈ (registerFlags env version).1.formal, ∃ o ∈ usageOptions,
      o.long = f.Name ∧ o.short = f.Shorthand) ∧
    (usageOptions.map (fun o => o.short)).filter (fun s => s ≠ "") =
      ["v", "H", "p", "d", "u", "e"] ∧
    (∀ f ∈ (registerFlags env version).1.formal, ∀ o ∈ usageOptions, o.long = f.Name →
      f.Name ∈ ["format", "precision", "consistency"] → f.DefValue ∈ o.values) := by
  rw [registerFlags_eq, usageOptions_eq]
  simp [registeredFlags]

end Influx
